import Mathlib

/-!
Verification of the gotty session-protocol and lifecycle-coordinator spec
against the repository sources:

  - src/server/run_option.go  (Server, New, Run, setupHandlers, URL)
  - src/js/src/webtty.ts      (frame constants, WebTTY.open)
  - src/js/src/main.ts        (browser entry point: connection URL)

Byte sequences are modelled as `List Nat` with every element `< 256`;
JavaScript strings are modelled as `List Char` (sequences of Unicode
scalar values) or Lean `String` where convenient.
-/

namespace Gotty

/-! ## Base64 (the client's `atob`, the server's standard encoding) -/

/-- The character of the standard base64 alphabet at index `n` (`n < 64`). -/
def b64char (n : Nat) : Char :=
  if n < 26 then Char.ofNat (65 + n)
  else if n < 52 then Char.ofNat (97 + (n - 26))
  else if n < 62 then Char.ofNat (48 + (n - 52))
  else if n = 62 then '+'
  else '/'

/-- Index of a character in the standard base64 alphabet, `none` outside it. -/
def b64val (c : Char) : Option Nat :=
  if 'A' ≤ c ∧ c ≤ 'Z' then some (c.toNat - 65)
  else if 'a' ≤ c ∧ c ≤ 'z' then some (c.toNat - 97 + 26)
  else if '0' ≤ c ∧ c ≤ '9' then some (c.toNat - 48 + 52)
  else if c = '+' then some 62
  else if c = '/' then some 63
  else none

/-- Standard base64 of a byte sequence, with `=` padding (Go's
`base64.StdEncoding` / the browser's `btoa`). -/
def base64encode : List Nat → List Char
  | [] => []
  | [b0] => [b64char (b0 / 4), b64char (b0 % 4 * 16), '=', '=']
  | [b0, b1] => [b64char (b0 / 4), b64char (b0 % 4 * 16 + b1 / 16), b64char (b1 % 16 * 4), '=']
  | b0 :: b1 :: b2 :: rest =>
    b64char (b0 / 4) :: b64char (b0 % 4 * 16 + b1 / 16) ::
      b64char (b1 % 16 * 4 + b2 / 64) :: b64char (b2 % 64) :: base64encode rest

/-- Base64 decoding as the browser's `atob` performs it: four characters at a
time, `=` padding only at the end, a leftover group of two or three characters
decoded by discarding the trailing bits, a leftover single character refused. -/
def base64decode : List Char → Option (List Nat)
  | [] => some []
  | [c0, c1] =>
    match b64val c0, b64val c1 with
    | some v0, some v1 => some [v0 * 4 + v1 / 16]
    | _, _ => none
  | [c0, c1, c2] =>
    match b64val c0, b64val c1, b64val c2 with
    | some v0, some v1, some v2 => some [v0 * 4 + v1 / 16, v1 % 16 * 16 + v2 / 4]
    | _, _, _ => none
  | c0 :: c1 :: c2 :: c3 :: rest =>
    match b64val c0, b64val c1 with
    | some v0, some v1 =>
      if c2 = '=' then
        if c3 = '=' ∧ rest = [] then some [v0 * 4 + v1 / 16] else none
      else
        match b64val c2 with
        | some v2 =>
          if c3 = '=' then
            if rest = [] then some [v0 * 4 + v1 / 16, v1 % 16 * 16 + v2 / 4] else none
          else
            match b64val c3 with
            | some v3 =>
              (base64decode rest).map
                (fun tl => (v0 * 4 + v1 / 16) :: (v1 % 16 * 16 + v2 / 4) :: (v2 % 4 * 64 + v3) :: tl)
            | none => none
        | none => none
    | _, _ => none
  | _ => none

theorem b64val_b64char : ∀ n < 64, b64val (b64char n) = some n := by decide

theorem b64char_ne_pad : ∀ n < 64, b64char n ≠ '=' := by decide

theorem base64decode_encode : ∀ bs : List Nat, (∀ b ∈ bs, b < 256) →
    base64decode (base64encode bs) = some bs := by
  intro bs
  induction bs using base64encode.induct with
  | case1 =>
    intro _
    rfl
  | case2 b0 =>
    intro h
    have hb0 : b0 < 256 := h b0 (by simp)
    simp only [base64encode, base64decode]
    rw [b64val_b64char _ (by omega), b64val_b64char _ (by omega)]
    simp only [if_pos rfl, and_self, ite_true]
    congr 2
    omega
  | case3 b0 b1 =>
    intro h
    have hb0 : b0 < 256 := h b0 (by simp)
    have hb1 : b1 < 256 := h b1 (by simp)
    have hpad : b64char (b1 % 16 * 4) ≠ '=' := b64char_ne_pad _ (by omega)
    simp [base64encode, base64decode, b64val_b64char (b0 / 4) (by omega),
      b64val_b64char (b0 % 4 * 16 + b1 / 16) (by omega),
      b64val_b64char (b1 % 16 * 4) (by omega), hpad]
    omega
  | case4 b0 b1 b2 rest ih =>
    intro h
    have hb0 : b0 < 256 := h b0 (by simp)
    have hb1 : b1 < 256 := h b1 (by simp)
    have hb2 : b2 < 256 := h b2 (by simp)
    have hrest : ∀ b ∈ rest, b < 256 := fun b hb => h b (by simp [hb])
    have hpad2 : b64char (b1 % 16 * 4 + b2 / 64) ≠ '=' := b64char_ne_pad _ (by omega)
    have hpad3 : b64char (b2 % 64) ≠ '=' := b64char_ne_pad _ (by omega)
    simp [base64encode, base64decode, b64val_b64char (b0 / 4) (by omega),
      b64val_b64char (b0 % 4 * 16 + b1 / 16) (by omega),
      b64val_b64char (b1 % 16 * 4 + b2 / 64) (by omega),
      b64val_b64char (b2 % 64) (by omega), hpad2, hpad3, ih hrest]
    omega

/-! ## UTF-8 (the percent-decoding performed by `decodeURIComponent`) -/

/-- A Unicode scalar value: a code point outside the surrogate range. -/
def ValidScalar (c : Nat) : Prop := c < 0xD800 ∨ (0xE000 ≤ c ∧ c < 0x110000)

instance : DecidablePred ValidScalar := fun c => by
  unfold ValidScalar
  infer_instance

/-- The UTF-8 bytes of one Unicode scalar value. -/
def utf8encodeChar (c : Nat) : List Nat :=
  if c < 0x80 then [c]
  else if c < 0x800 then [0xC0 + c / 64, 0x80 + c % 64]
  else if c < 0x10000 then [0xE0 + c / 4096, 0x80 + c / 64 % 64, 0x80 + c % 64]
  else [0xF0 + c / 262144, 0x80 + c / 4096 % 64, 0x80 + c / 64 % 64, 0x80 + c % 64]

/-- The UTF-8 bytes of a sequence of Unicode scalar values. -/
def utf8encode : List Nat → List Nat
  | [] => []
  | c :: cps => utf8encodeChar c ++ utf8encode cps

/-- Decode one UTF-8 sequence starting at lead byte `b` followed by `rest`:
the decoded scalar value and the bytes remaining after the sequence; `none`
for a truncated, overlong, surrogate or out-of-range sequence. -/
def utf8step (b : Nat) (rest : List Nat) : Option (Nat × List Nat) :=
  if b < 0x80 then some (b, rest)
  else if b < 0xC0 then none
  else if b < 0xE0 then
    match rest with
    | b1 :: rest2 =>
      if b1 < 0x80 ∨ 0xC0 ≤ b1 then none
      else if (b - 0xC0) * 64 + (b1 - 0x80) < 0x80 then none
      else some ((b - 0xC0) * 64 + (b1 - 0x80), rest2)
    | [] => none
  else if b < 0xF0 then
    match rest with
    | b1 :: b2 :: rest3 =>
      if b1 < 0x80 ∨ 0xC0 ≤ b1 ∨ b2 < 0x80 ∨ 0xC0 ≤ b2 then none
      else if (b - 0xE0) * 4096 + (b1 - 0x80) * 64 + (b2 - 0x80) < 0x800 then none
      else if 0xD800 ≤ (b - 0xE0) * 4096 + (b1 - 0x80) * 64 + (b2 - 0x80) ∧
          (b - 0xE0) * 4096 + (b1 - 0x80) * 64 + (b2 - 0x80) < 0xE000 then none
      else some ((b - 0xE0) * 4096 + (b1 - 0x80) * 64 + (b2 - 0x80), rest3)
    | _ => none
  else if b < 0xF8 then
    match rest with
    | b1 :: b2 :: b3 :: rest4 =>
      if b1 < 0x80 ∨ 0xC0 ≤ b1 ∨ b2 < 0x80 ∨ 0xC0 ≤ b2 ∨ b3 < 0x80 ∨ 0xC0 ≤ b3 then none
      else if (b - 0xF0) * 262144 + (b1 - 0x80) * 4096 + (b2 - 0x80) * 64 + (b3 - 0x80)
          < 0x10000 then none
      else if 0x110000 ≤
          (b - 0xF0) * 262144 + (b1 - 0x80) * 4096 + (b2 - 0x80) * 64 + (b3 - 0x80) then none
      else some ((b - 0xF0) * 262144 + (b1 - 0x80) * 4096 + (b2 - 0x80) * 64 + (b3 - 0x80), rest4)
    | _ => none
  else none

theorem utf8step_length (b : Nat) (rest : List Nat) (c : Nat) (rest2 : List Nat)
    (h : utf8step b rest = some (c, rest2)) : rest2.length ≤ rest.length := by
  unfold utf8step at h
  repeat' split at h
  all_goals simp_all
  all_goals omega

/-- Strict UTF-8 decoding of a byte sequence into scalar values, as
`decodeURIComponent` performs it on a run of percent-escaped bytes: truncated,
overlong, surrogate and out-of-range sequences are refused (`none` models the
thrown `URIError`). -/
def utf8decode : List Nat → Option (List Nat)
  | [] => some []
  | b :: rest =>
    match hstep : utf8step b rest with
    | some (c, rest2) => (utf8decode rest2).map (fun l => c :: l)
    | none => none
termination_by l => l.length
decreasing_by
  have := utf8step_length _ _ _ _ hstep
  simp only [List.length_cons]
  omega

theorem utf8encodeChar_lt_256 (c : Nat) (h : ValidScalar c) : ∀ b ∈ utf8encodeChar c, b < 256 := by
  have hc : c < 0x110000 := by rcases h with h | h <;> omega
  intro b hb
  unfold utf8encodeChar at hb
  split_ifs at hb <;> simp at hb <;> omega

theorem utf8encode_lt_256 (cps : List Nat) (h : ∀ c ∈ cps, ValidScalar c) :
    ∀ b ∈ utf8encode cps, b < 256 := by
  induction cps with
  | nil => simp [utf8encode]
  | cons c cps ih =>
    intro b hb
    rw [utf8encode] at hb
    rcases List.mem_append.mp hb with hb | hb
    · exact utf8encodeChar_lt_256 c (h c (by simp)) b hb
    · exact ih (fun x hx => h x (by simp [hx])) b hb

theorem utf8decode_cons (b : Nat) (rest : List Nat) (c : Nat) (rest2 : List Nat)
    (h : utf8step b rest = some (c, rest2)) :
    utf8decode (b :: rest) = (utf8decode rest2).map (fun l => c :: l) := by
  rw [utf8decode]
  split
  next c2 r2 heq =>
    rw [h] at heq
    cases heq
    rfl
  next heq =>
    rw [h] at heq
    cases heq

theorem utf8decode_cons_none (b : Nat) (rest : List Nat)
    (h : utf8step b rest = none) : utf8decode (b :: rest) = none := by
  rw [utf8decode]
  split
  next c2 r2 heq =>
    rw [h] at heq
    cases heq
  next => rfl

theorem utf8decode_encodeChar (c : Nat) (h : ValidScalar c) (bs : List Nat) :
    utf8decode (utf8encodeChar c ++ bs) = (utf8decode bs).map (fun l => c :: l) := by
  rcases Nat.lt_or_ge c 0x80 with h1 | h1
  · have he : utf8encodeChar c = [c] := by
      rw [utf8encodeChar, if_pos h1]
    have hs : utf8step c bs = some (c, bs) := by
      simp only [utf8step, if_pos h1]
    rw [he, List.cons_append, List.nil_append, utf8decode_cons c bs c bs hs]
  · rcases Nat.lt_or_ge c 0x800 with h2 | h2
    · have e1 : ¬ c < 0x80 := by omega
      have he : utf8encodeChar c = [0xC0 + c / 64, 0x80 + c % 64] := by
        rw [utf8encodeChar, if_neg e1, if_pos h2]
      have f1 : ¬ 0xC0 + c / 64 < 0x80 := by omega
      have f2 : ¬ 0xC0 + c / 64 < 0xC0 := by omega
      have f3 : 0xC0 + c / 64 < 0xE0 := by omega
      have f4 : ¬ (0x80 + c % 64 < 0x80 ∨ 0xC0 ≤ 0x80 + c % 64) := by omega
      have f5 : ¬ (0xC0 + c / 64 - 0xC0) * 64 + (0x80 + c % 64 - 0x80) < 0x80 := by omega
      have f6 : (0xC0 + c / 64 - 0xC0) * 64 + (0x80 + c % 64 - 0x80) = c := by omega
      have hs : utf8step (0xC0 + c / 64) ((0x80 + c % 64) :: bs) = some (c, bs) := by
        simp only [utf8step, if_neg f1, if_neg f2, if_pos f3]
        rw [if_neg f4, if_neg f5, f6]
      rw [he, List.cons_append, List.cons_append, List.nil_append, utf8decode_cons _ _ c bs hs]
    · rcases Nat.lt_or_ge c 0x10000 with h3 | h3
      · have hsur : c < 0xD800 ∨ 0xE000 ≤ c := by
          rcases h with h | h
          · exact Or.inl h
          · exact Or.inr h.1
        have e1 : ¬ c < 0x80 := by omega
        have e2 : ¬ c < 0x800 := by omega
        have he : utf8encodeChar c = [0xE0 + c / 4096, 0x80 + c / 64 % 64, 0x80 + c % 64] := by
          rw [utf8encodeChar, if_neg e1, if_neg e2, if_pos h3]
        have f1 : ¬ 0xE0 + c / 4096 < 0x80 := by omega
        have f2 : ¬ 0xE0 + c / 4096 < 0xC0 := by omega
        have f3 : ¬ 0xE0 + c / 4096 < 0xE0 := by omega
        have f4 : 0xE0 + c / 4096 < 0xF0 := by omega
        have f5 : ¬ (0x80 + c / 64 % 64 < 0x80 ∨ 0xC0 ≤ 0x80 + c / 64 % 64 ∨
            0x80 + c % 64 < 0x80 ∨ 0xC0 ≤ 0x80 + c % 64) := by omega
        have f6 : ¬ (0xE0 + c / 4096 - 0xE0) * 4096 + (0x80 + c / 64 % 64 - 0x80) * 64 +
            (0x80 + c % 64 - 0x80) < 0x800 := by omega
        have f7 : ¬ (0xD800 ≤ (0xE0 + c / 4096 - 0xE0) * 4096 + (0x80 + c / 64 % 64 - 0x80) * 64 +
            (0x80 + c % 64 - 0x80) ∧ (0xE0 + c / 4096 - 0xE0) * 4096 +
            (0x80 + c / 64 % 64 - 0x80) * 64 + (0x80 + c % 64 - 0x80) < 0xE000) := by omega
        have f8 : (0xE0 + c / 4096 - 0xE0) * 4096 + (0x80 + c / 64 % 64 - 0x80) * 64 +
            (0x80 + c % 64 - 0x80) = c := by omega
        have hs : utf8step (0xE0 + c / 4096) ((0x80 + c / 64 % 64) :: (0x80 + c % 64) :: bs) =
            some (c, bs) := by
          simp only [utf8step, if_neg f1, if_neg f2, if_neg f3, if_pos f4]
          rw [if_neg f5, if_neg f6, if_neg f7, f8]
        rw [he, List.cons_append, List.cons_append, List.cons_append, List.nil_append,
          utf8decode_cons _ _ c bs hs]
      · have hc : c < 0x110000 := by
          rcases h with h | h
          · omega
          · exact h.2
        have e1 : ¬ c < 0x80 := by omega
        have e2 : ¬ c < 0x800 := by omega
        have e3 : ¬ c < 0x10000 := by omega
        have he : utf8encodeChar c =
            [0xF0 + c / 262144, 0x80 + c / 4096 % 64, 0x80 + c / 64 % 64, 0x80 + c % 64] := by
          rw [utf8encodeChar, if_neg e1, if_neg e2, if_neg e3]
        have f1 : ¬ 0xF0 + c / 262144 < 0x80 := by omega
        have f2 : ¬ 0xF0 + c / 262144 < 0xC0 := by omega
        have f3 : ¬ 0xF0 + c / 262144 < 0xE0 := by omega
        have f4 : ¬ 0xF0 + c / 262144 < 0xF0 := by omega
        have f5 : 0xF0 + c / 262144 < 0xF8 := by omega
        have f6 : ¬ (0x80 + c / 4096 % 64 < 0x80 ∨ 0xC0 ≤ 0x80 + c / 4096 % 64 ∨
            0x80 + c / 64 % 64 < 0x80 ∨ 0xC0 ≤ 0x80 + c / 64 % 64 ∨
            0x80 + c % 64 < 0x80 ∨ 0xC0 ≤ 0x80 + c % 64) := by omega
        have f7 : ¬ (0xF0 + c / 262144 - 0xF0) * 262144 + (0x80 + c / 4096 % 64 - 0x80) * 4096 +
            (0x80 + c / 64 % 64 - 0x80) * 64 + (0x80 + c % 64 - 0x80) < 0x10000 := by omega
        have f8 : ¬ 0x110000 ≤ (0xF0 + c / 262144 - 0xF0) * 262144 +
            (0x80 + c / 4096 % 64 - 0x80) * 4096 +
            (0x80 + c / 64 % 64 - 0x80) * 64 + (0x80 + c % 64 - 0x80) := by omega
        have f9 : (0xF0 + c / 262144 - 0xF0) * 262144 + (0x80 + c / 4096 % 64 - 0x80) * 4096 +
            (0x80 + c / 64 % 64 - 0x80) * 64 + (0x80 + c % 64 - 0x80) = c := by omega
        have hs : utf8step (0xF0 + c / 262144)
            ((0x80 + c / 4096 % 64) :: (0x80 + c / 64 % 64) :: (0x80 + c % 64) :: bs) =
            some (c, bs) := by
          simp only [utf8step, if_neg f1, if_neg f2, if_neg f3, if_neg f4, if_pos f5]
          rw [if_neg f6, if_neg f7, if_neg f8, f9]
        rw [he, List.cons_append, List.cons_append, List.cons_append, List.cons_append,
          List.nil_append, utf8decode_cons _ _ c bs hs]

theorem utf8decode_encode (cps : List Nat) (h : ∀ c ∈ cps, ValidScalar c) :
    utf8decode (utf8encode cps) = some cps := by
  induction cps with
  | nil => rw [utf8encode, utf8decode]
  | cons c cps ih =>
    rw [utf8encode, utf8decode_encodeChar c (h c (by simp)),
      ih (fun x hx => h x (by simp [hx]))]
    rfl

/-! ## webtty.ts: frame discriminators and the client controller -/

namespace webtty

/-- webtty.ts:3-6, client-to-server message types. -/
def InputUnknown : Char := '0'

def Input : Char := '1'

def Ping : Char := '2'

def ResizeTerminal : Char := '3'

/-- webtty.ts:8-13, server-to-client message types. -/
def UnknownOutput : Char := '0'

def Output : Char := '1'

def Pong : Char := '2'

def SetWindowTitle : Char := '3'

def SetPreferences : Char := '4'

def SetReconnect : Char := '5'

end webtty

/-- webtty.ts:90-95, the Output case of the receive handler: base64-decode the
payload (`atob`), percent-escape each byte as `%XX`, and `decodeURIComponent`
the result — i.e. strict UTF-8 decoding of the base64-decoded byte sequence.
`none` models a thrown exception (InvalidCharacterError from `atob`, URIError
from `decodeURIComponent`). A successful result is the decoded JavaScript
string, given as its list of Unicode scalar values. -/
def decodeOutputPayload (payload : List Char) : Option (List Nat) :=
  (base64decode payload).bind utf8decode

/-- Modelled from the spec: the server-side Output payload encoding (the Go
webtty package is not under src/). Spec section 3 requires a byte-safe
reversible text transform for Output payloads; the transform matching the
client's `atob` decode step is standard base64 of the raw output bytes. -/
def encodeOutput (b : List Nat) : List Char := base64encode b

/-- Mutable state of a `WebTTY` instance (webtty.ts:41-54) that the claims
touch: whether the onOpen callback has run (registering the terminal input and
resize handlers), and the stored reconnect value (`undefined` before any
SetReconnect frame arrives, modelled as `none`). -/
structure WTState where
  handlersWired : Bool
  reconnect : Option Int
deriving DecidableEq

/-- Effects the receive handler can have on the terminal. -/
inductive TermAction where
  | write (codepoints : List Nat)
  | setWindowTitle (title : List Char)
  | setPreferences (json : List Char)
deriving DecidableEq

/-- The behavior of `JSON.parse` restricted to integer literals — the only payload form the
server sends for SetReconnect. `none` models a thrown SyntaxError. -/
def parseJsonInt (s : List Char) : Option Int :=
  match s with
  | '-' :: ds =>
    if ds ≠ [] ∧ ds.all Char.isDigit then
      some (-(Int.ofNat (ds.foldl (fun a d => a * 10 + (d.toNat - 48)) 0)))
    else none
  | ds =>
    if ds ≠ [] ∧ ds.all Char.isDigit then
      some (Int.ofNat (ds.foldl (fun a d => a * 10 + (d.toNat - 48)) 0))
    else none

/-- webtty.ts:87-113, the `connection.onReceive` callback: slice off the first
character and switch on it; `'1'` writes the decoded payload to the terminal,
`'2'` does nothing, `'3'` sets the window title, `'4'` applies preferences,
`'5'` stores the reconnect value, and any other first character (or an empty
message, whose `data[0]` is undefined) matches no case and does nothing.
`none` models an exception thrown inside the handler. -/
def handleReceive (st : WTState) (data : List Char) : Option (WTState × List TermAction) :=
  match data with
  | [] => some (st, [])
  | c :: payload =>
    if c = webtty.Output then
      match decodeOutputPayload payload with
      | some cps => some (st, [TermAction.write cps])
      | none => none
    else if c = webtty.Pong then some (st, [])
    else if c = webtty.SetWindowTitle then some (st, [TermAction.setWindowTitle payload])
    else if c = webtty.SetPreferences then some (st, [TermAction.setPreferences payload])
    else if c = webtty.SetReconnect then
      match parseJsonInt payload with
      | some n => some ({ st with reconnect := some n }, [])
      | none => none
    else some (st, [])

/-- The function object passed to `setTimeout` in the close handler. In
webtty.ts:118 the argument is the bare identifier `open`; inside the arrow
function there is no local or module-level binding named `open`, so it
resolves to the global `window.open`, not to the method `this.open`. -/
inductive ScheduledCallee where
  | windowOpen
  | webttyOpen
deriving DecidableEq

/-- The observable effects of the `connection.onClose` callback. -/
structure CloseActions where
  messages : List (String × Int)
  timeouts : List (ScheduledCallee × Int)
deriving DecidableEq

/-- webtty.ts:115-120, the `connection.onClose` callback: always
`showMessage("disconnected", 0)`; when the stored reconnect value is defined
and positive, one `setTimeout(open, this.reconnect * 1000)` — scheduling the
global `open` (see `ScheduledCallee`). With no SetReconnect received,
`this.reconnect` is undefined and `undefined > 0` is false: nothing is
scheduled. -/
def onCloseHandler (reconnect : Option Int) : CloseActions :=
  { messages := [("disconnected", 0)]
    timeouts :=
      match reconnect with
      | some n => if n > 0 then [(ScheduledCallee.windowOpen, n * 1000)] else []
      | none => [] }

/-- Events delivered to the callbacks that `WebTTY.open` registers. -/
inductive ClientEvent where
  | opened
  | termInput (data : String)
  | termResize (columns rows : Int)
  | received (data : List Char)
  | closed

/-- Client-to-server message bodies built by `WebTTY.open` (webtty.ts:60-84):
the handshake `JSON.stringify({Arguments, AuthToken})`, the resize frame
`ResizeTerminal + JSON.stringify({columns, rows})`, and the input frame
`Input + input`. -/
inductive ClientMsg where
  | handshake (arguments authToken : String)
  | resize (columns rows : Int)
  | input (data : String)
deriving DecidableEq

/-- One event step of `WebTTY.open` (webtty.ts:56-123): on the open event the
handshake is sent first, and only then are the terminal onResize and onInput
handlers registered, so input and resize events reaching the controller before
the open event send nothing; a received message runs `handleReceive`; the
close handler sends nothing on the connection. Returns the successor state and
the list of bodies sent on the connection, in order. -/
def ctrlStep (args tok : String) (st : WTState) : ClientEvent → WTState × List ClientMsg
  | ClientEvent.opened => ({ st with handlersWired := true }, [ClientMsg.handshake args tok])
  | ClientEvent.termResize c r =>
    if st.handlersWired then (st, [ClientMsg.resize c r]) else (st, [])
  | ClientEvent.termInput d =>
    if st.handlersWired then (st, [ClientMsg.input d]) else (st, [])
  | ClientEvent.received d =>
    match handleReceive st d with
    | some (st2, _) => (st2, [])
    | none => (st, [])
  | ClientEvent.closed => (st, [])

/-- The connection bodies sent while processing a list of events in order. -/
def ctrlRun (args tok : String) (st : WTState) : List ClientEvent → List ClientMsg
  | [] => []
  | e :: es =>
    (ctrlStep args tok st e).2 ++ ctrlRun args tok (ctrlStep args tok st e).1 es

/-- State of a freshly constructed `WebTTY` (webtty.ts:49-54): no handlers
wired, no reconnect value stored. -/
def ctrlInit : WTState := { handlersWired := false, reconnect := none }

/-- webtty.ts:82, the body sent for a terminal-input event: the Input
discriminator followed by the raw input string. -/
def inputFrameData (input : List Char) : List Char := webtty.Input :: input

/-- The Input-frame payload that the spec words prescribe (section 3: Input
payloads use the same byte-safe reversible transform as Output payloads);
stated from the spec for comparison with `inputFrameData`. The input string is
given as its list of Unicode scalar values. -/
def specInputPayload (inputCodepoints : List Nat) : List Char :=
  base64encode (utf8encode inputCodepoints)

/-! ## main.ts: the browser entry point -/

/-- The fields of `window.location` that main.ts reads (plus `port`, which it
does not read). -/
structure Location where
  protocol : String
  hostname : String
  port : String
  pathname : String
  search : String

/-- main.ts:10-11: the websocket URL is built as
`(httpsEnabled ? "wss://" : "ws://") + hostname + ":8080" + pathname + "ws"`,
where `httpsEnabled` is `window.location.protocol == "https:"`. -/
def connectionUrl (loc : Location) : String :=
  (if loc.protocol = "https:" then "wss://" else "ws://") ++
    loc.hostname ++ ":8080" ++ loc.pathname ++ "ws"

/-! ## run_option.go: handler wiring, origin check, Run, drain wait -/

/-- The parts of an incoming HTTP request that the modelled handlers inspect:
the URL path, the decoded basic-auth credential pair ("user:pass", `none` when
no Authorization header is present), and the Origin header. -/
structure Request where
  path : String
  basicCredential : Option String
  origin : Option String
deriving DecidableEq

/-- Where the handler tree sends a request. -/
inductive HandlerResult where
  | websocketUpgrade
  | unauthorized
  | site
deriving DecidableEq

/-- run_option.go:69: the upgrader is built with
`CheckOrigin: func(r *http.Request) bool { return true }`. -/
def checkOrigin (_r : Request) : Bool := true

/-- Modelled from the spec: `wrapBasicAuth` (handlers.go, which is not under
src/) is the HTTP-layer challenge/response credential check of spec section
4.3: a request whose credential is missing or does not match the configured
user/pass pair is refused with Unauthorized; otherwise the wrapped handler
runs. -/
def wrapBasicAuth (inner : Request → HandlerResult) (credential : String)
    (r : Request) : HandlerResult :=
  if r.basicCredential = some credential then inner r else HandlerResult.unauthorized

/-- Modelled from the spec: the static site mux built in setupHandlers
(run_option.go:162-171: index, js/, favicon.png, auth_token.js). Which static
resource is served does not matter to the claims. -/
def siteMuxHandler (_r : Request) : HandlerResult := HandlerResult.site

/-- Modelled from the spec: `generateHandleWS` (handlers.go, not under src/)
performs the websocket upgrade and runs the session. A request dispatched here
has reached the upgrade endpoint. -/
def generateHandleWS (_r : Request) : HandlerResult := HandlerResult.websocketUpgrade

/-- run_option.go:156-188, `Server.setupHandlers`: the site mux is wrapped in
`wrapBasicAuth` when basic auth is enabled (173-178); then an outer mux is
built with pattern `"/"` mapped to that wrapped site handler and pattern
`url.Path + "ws"` mapped directly to `generateHandleWS` (182-185). Go mux
dispatch for these two patterns sends exactly the path `basePath ++ "ws"` to
the ws handler and everything else to the site handler; `wrapHeaders` and
`wrapLogger` only decorate and are omitted. -/
def setupHandlers (enableBasicAuth : Bool) (credential : String) (basePath : String)
    (r : Request) : HandlerResult :=
  let siteHandler := siteMuxHandler
  let siteHandler :=
    if enableBasicAuth then wrapBasicAuth siteHandler credential else siteHandler
  if r.path = basePath ++ "ws" then generateHandleWS r else siteHandler r

/-- Go error values distinguished by Server.Run. -/
inductive GoErr where
  | errServerClosed
  | contextCanceled
  | other (msg : String)
deriving DecidableEq

/-- The two arms of the final select in Server.Run (run_option.go:135-145). -/
inductive SelectArm where
  | listenErrArm (e : GoErr)
  | ctxDoneArm
deriving DecidableEq

/-- run_option.go:135-145: on the listenErr arm, `http.ErrServerClosed` is
turned into nil and any other error is kept (after cancelling the context); on
the cctx.Done arm the server is closed and `err = cctx.Err()`, which is
`context.Canceled` after a cancellation. -/
def runSelectResult : SelectArm → Option GoErr
  | SelectArm.listenErrArm e => if e = GoErr.errServerClosed then none else some e
  | SelectArm.ctxDoneArm => some GoErr.contextCanceled

/-- The three shutdown triggers the claims distinguish. -/
inductive ShutdownTrigger where
  | inactivityTimer
  | gracefulContext
  | listenerFailure (e : GoErr)
deriving DecidableEq

/-- Which select arm each trigger resolves to. The timer goroutine
(run_option.go:99-108) calls `cancel()`, so the select takes the cctx.Done
arm. The graceful goroutine (127-133) calls `srv.Shutdown`, after which
net/http makes `ListenAndServe` return `http.ErrServerClosed`, delivered on
the listenErr channel (110-125). An unexpected listener failure delivers its
non-nil error on the listenErr channel. -/
def armOf : ShutdownTrigger → SelectArm
  | ShutdownTrigger.inactivityTimer => SelectArm.ctxDoneArm
  | ShutdownTrigger.gracefulContext => SelectArm.listenErrArm GoErr.errServerClosed
  | ShutdownTrigger.listenerFailure e => SelectArm.listenErrArm e

/-- The error Server.Run returns when shutdown is caused by a given trigger. -/
def runResult (t : ShutdownTrigger) : Option GoErr := runSelectResult (armOf t)

/-- Events of the drain phase after the final select: a session deregisters
(its deferred `wsWG.Done`, decrementing the waitgroup; handlers.go, modelled
from the spec as exactly one decrement per registered session), or
`wsWG.Wait()` unblocks and Run returns (run_option.go:147-153). -/
inductive DrainEvent where
  | deregister
  | stop
deriving DecidableEq

/-- Drain-state transition: states are (waitgroup counter, returned flag).
`deregister` needs a positive counter; `stop` (Run returning past
`wsWG.Wait()`) is possible only at counter zero; nothing follows a return. -/
def drainStep : Nat × Bool → DrainEvent → Option (Nat × Bool)
  | (n + 1, false), DrainEvent.deregister => some (n, false)
  | (0, false), DrainEvent.stop => some (0, true)
  | _, _ => none

/-- Run a list of drain events from a state; `none` for an impossible trace. -/
def drainRun (s : Nat × Bool) : List DrainEvent → Option (Nat × Bool)
  | [] => some s
  | e :: es =>
    match drainStep s e with
    | some s2 => drainRun s2 es
    | none => none

/-- Number of deregistrations in a drain trace. -/
def countDereg : List DrainEvent → Nat
  | [] => 0
  | DrainEvent.deregister :: es => countDereg es + 1
  | DrainEvent.stop :: es => countDereg es

/-! ## Helper lemmas -/

theorem handleReceive_wired (st st2 : WTState) (d : List Char) (as : List TermAction)
    (h : handleReceive st d = some (st2, as)) : st2.handlersWired = st.handlersWired := by
  cases d with
  | nil =>
    simp only [handleReceive, Option.some.injEq, Prod.mk.injEq] at h
    rw [← h.1]
  | cons c payload =>
    unfold handleReceive at h
    repeat' split at h
    all_goals first
      | exact Option.noConfusion h
      | (injection h with h1
         injection h1 with h2 h3
         rw [← h2])

theorem ctrlRun_unwired (args tok : String) :
    ∀ (evs : List ClientEvent) (st : WTState), st.handlersWired = false →
      ctrlRun args tok st evs = [] ∨
        ∃ rest, ctrlRun args tok st evs = ClientMsg.handshake args tok :: rest := by
  intro evs
  induction evs with
  | nil =>
    intro st hw
    exact Or.inl rfl
  | cons e es ih =>
    intro st hw
    cases e with
    | opened => exact Or.inr ⟨_, rfl⟩
    | termInput d =>
      rw [ctrlRun]
      simp only [ctrlStep, hw, Bool.false_eq_true, if_false, List.nil_append]
      exact ih st hw
    | termResize c r =>
      rw [ctrlRun]
      simp only [ctrlStep, hw, Bool.false_eq_true, if_false, List.nil_append]
      exact ih st hw
    | received d =>
      rw [ctrlRun]
      cases hr : handleReceive st d with
      | some p =>
        obtain ⟨st2, as⟩ := p
        have hw2 : st2.handlersWired = false :=
          (handleReceive_wired st st2 d as hr).trans hw
        simp only [ctrlStep, hr, List.nil_append]
        exact ih st2 hw2
      | none =>
        simp only [ctrlStep, hr, List.nil_append]
        exact ih st hw
    | closed =>
      rw [ctrlRun]
      simp only [ctrlStep, List.nil_append]
      exact ih st hw

/-! ## The claims -/

/-- Claim C1, counterexample: with basic auth enabled and credential
"user:pass" configured, a request for the websocket endpoint path "/ws"
carrying no credential is dispatched straight to the websocket upgrade
handler — it is not refused with Unauthorized, because setupHandlers registers
the ws route on the outer mux (run_option.go:184), outside the wrapBasicAuth
wrapper that guards only the site handler (run_option.go:175-178). -/
theorem ws_bypasses_basic_auth_cx :
    setupHandlers true "user:pass" "/"
        { path := "/ws", basicCredential := none, origin := none } =
      HandlerResult.websocketUpgrade ∧
    HandlerResult.websocketUpgrade ≠ HandlerResult.unauthorized := by decide

/-- Claim C1, amended: with basic auth enabled, the credential check guards
every path except the websocket endpoint: a request whose path is not
`basePath ++ "ws"` is refused with Unauthorized exactly when its credential is
missing or differs from the configured pair; the ws path itself bypasses the
check (see the counterexample). -/
theorem basic_auth_guards_site (credential basePath : String) (r : Request)
    (hws : r.path ≠ basePath ++ "ws") :
    setupHandlers true credential basePath r = HandlerResult.unauthorized ↔
      r.basicCredential ≠ some credential := by
  by_cases hc : r.basicCredential = some credential
  · simp [setupHandlers, hws, wrapBasicAuth, hc, siteMuxHandler]
  · simp [setupHandlers, hws, wrapBasicAuth, hc]

/-- Witness for C1: the index path "/" with a missing credential is refused
with Unauthorized. -/
theorem basic_auth_guards_site_witness :
    setupHandlers true "user:pass" "/"
        { path := "/", basicCredential := none, origin := none } =
      HandlerResult.unauthorized ↔ (none : Option String) ≠ some "user:pass" :=
  basic_auth_guards_site "user:pass" "/"
    { path := "/", basicCredential := none, origin := none } (by decide)

/-- Claim C2, counterexample: the byte sequence [0x80] — a lone continuation
byte, not valid UTF-8 — does not survive the round trip: applying the client's
Output decode to the encoded payload throws (`atob` succeeds, then
`decodeURIComponent` raises URIError) instead of recovering the byte. -/
theorem output_roundtrip_cx :
    decodeOutputPayload (encodeOutput [128]) = none ∧
      decodeOutputPayload (encodeOutput [128]) ≠ some [128] := by
  have h1 : base64decode (base64encode [128]) = some [128] :=
    base64decode_encode [128] (by decide)
  have h2 : decodeOutputPayload (encodeOutput [128]) = none := by
    unfold decodeOutputPayload encodeOutput
    rw [h1]
    exact utf8decode_cons_none 128 [] rfl
  refine ⟨h2, ?_⟩
  rw [h2]
  exact fun hx => Option.noConfusion hx

/-- Claim C2, amended: the round trip holds exactly on UTF-8-clean data: for
every sequence of Unicode scalar values, decoding the encoded Output frame of
its UTF-8 byte encoding recovers exactly that string. Byte sequences that are
not valid UTF-8 make the Output decode throw instead (see the
counterexample). -/
theorem output_roundtrip_utf8 (cps : List Nat) (h : ∀ c ∈ cps, ValidScalar c) :
    decodeOutputPayload (encodeOutput (utf8encode cps)) = some cps := by
  unfold decodeOutputPayload encodeOutput
  rw [base64decode_encode _ (utf8encode_lt_256 cps h)]
  exact utf8decode_encode cps h

/-- Witness for C2 at the scalars [72, 9731] ("H" and the snowman character:
one 1-byte and one 3-byte UTF-8 sequence). -/
theorem output_roundtrip_utf8_witness :
    decodeOutputPayload (encodeOutput (utf8encode [72, 9731])) = some [72, 9731] :=
  output_roundtrip_utf8 [72, 9731] (by decide)

/-- Claim C3, at the failing input: after SetReconnect(5) arrives (wire body
"55": discriminator '5', payload "5") the stored reconnect value is 5, and the
close handler shows the disconnected message and schedules exactly one timeout
after 5 * 1000 ms — but the scheduled function is the global `open`
(window.open), not the controller's own `open` method, because the bare
identifier `open` in `setTimeout(open, this.reconnect * 1000)` (webtty.ts:118)
does not resolve to `this.open`. With no SetReconnect received, or a stored
value of 0, nothing is scheduled. -/
theorem reconnect_schedules_global_open :
    handleReceive ctrlInit ['5', '5'] =
      some ({ handlersWired := false, reconnect := some 5 }, []) ∧
    onCloseHandler (some 5) =
      { messages := [("disconnected", 0)],
        timeouts := [(ScheduledCallee.windowOpen, 5000)] } ∧
    ScheduledCallee.windowOpen ≠ ScheduledCallee.webttyOpen ∧
    onCloseHandler none = { messages := [("disconnected", 0)], timeouts := [] } ∧
    onCloseHandler (some 0) = { messages := [("disconnected", 0)], timeouts := [] } := by
  decide

/-- Claim C4: Server.Run returns nil exactly when shutdown was triggered by
the externally supplied graceful context; the inactivity timer and an
unexpected listener failure (whose error is never http.ErrServerClosed)
produce a non-nil error. -/
theorem run_error_iff_graceful (t : ShutdownTrigger)
    (hl : ∀ e, t = ShutdownTrigger.listenerFailure e → e ≠ GoErr.errServerClosed) :
    runResult t = none ↔ t = ShutdownTrigger.gracefulContext := by
  cases t with
  | inactivityTimer => simp [runResult, armOf, runSelectResult]
  | gracefulContext => simp [runResult, armOf, runSelectResult]
  | listenerFailure e =>
    have he := hl e rfl
    simp [runResult, armOf, runSelectResult, he]

/-- Witness for C4 at the graceful trigger, where the listener-failure
hypothesis is vacuous. -/
theorem run_error_iff_graceful_witness :
    runResult ShutdownTrigger.gracefulContext = none ↔
      ShutdownTrigger.gracefulContext = ShutdownTrigger.gracefulContext :=
  run_error_iff_graceful ShutdownTrigger.gracefulContext (fun _ h => nomatch h)

/-- Claim C5: a drain trace that starts with N registered sessions and ends
with Run returned contains exactly N deregistrations — whatever their order —
and the counter is 0 at the return, so Run never returns while sessions
remain registered. -/
theorem drain_exact_deregistrations (evs : List DrainEvent) :
    ∀ N c : Nat, drainRun (N, false) evs = some (c, true) →
      countDereg evs = N ∧ c = 0 := by
  induction evs with
  | nil =>
    intro N c h
    exact absurd h (by simp [drainRun])
  | cons e es ih =>
    intro N c h
    cases e with
    | deregister =>
      cases N with
      | zero => exact Option.noConfusion h
      | succ n =>
        obtain ⟨h1, h2⟩ := ih n c h
        exact ⟨by simp [countDereg, h1], h2⟩
    | stop =>
      cases N with
      | zero =>
        cases es with
        | nil =>
          have h2 := Option.some.inj h
          injection h2 with h3 h4
          exact ⟨rfl, h3.symm⟩
        | cons e2 es2 =>
          cases e2 with
          | deregister => exact Option.noConfusion h
          | stop => exact Option.noConfusion h
      | succ n => exact Option.noConfusion h

/-- Witness for C5: two deregistrations then the return, from N = 2. -/
theorem drain_exact_deregistrations_witness :
    countDereg [DrainEvent.deregister, DrainEvent.deregister, DrainEvent.stop] = 2 ∧
      0 = 0 :=
  drain_exact_deregistrations
    [DrainEvent.deregister, DrainEvent.deregister, DrainEvent.stop] 2 0 (by decide)

/-- Claim C6: whatever events a connection delivers, the first body the
controller sends is the handshake {Arguments, AuthToken}; in particular no
Input or ResizeTerminal frame is ever sent before the handshake, because the
onOpen callback sends the handshake before registering the input and resize
handlers. -/
theorem handshake_first_message (args tok : String) (evs : List ClientEvent) :
    ctrlRun args tok ctrlInit evs = [] ∨
      ∃ rest, ctrlRun args tok ctrlInit evs = ClientMsg.handshake args tok :: rest :=
  ctrlRun_unwired args tok evs ctrlInit rfl

/-- Claim C7: a received message whose first character is none of the
server-to-client discriminators '0'..'5' is tolerated: the receive handler
matches no case, changes no state, performs no terminal action and throws
nothing, so the session continues. -/
theorem unknown_frame_tolerated (st : WTState) (c : Char) (payload : List Char)
    (h0 : c ≠ webtty.UnknownOutput) (h1 : c ≠ webtty.Output) (h2 : c ≠ webtty.Pong)
    (h3 : c ≠ webtty.SetWindowTitle) (h4 : c ≠ webtty.SetPreferences)
    (h5 : c ≠ webtty.SetReconnect) :
    handleReceive st (c :: payload) = some (st, []) := by
  simp only [handleReceive, if_neg h1, if_neg h2, if_neg h3, if_neg h4, if_neg h5]

/-- Witness for C7 at the concrete unrecognized frame "xy". -/
theorem unknown_frame_tolerated_witness :
    handleReceive { handlersWired := false, reconnect := none } ['x', 'y'] =
      some ({ handlersWired := false, reconnect := none }, []) :=
  unknown_frame_tolerated { handlersWired := false, reconnect := none } 'x' ['y']
    (by decide) (by decide) (by decide) (by decide) (by decide) (by decide)

/-- Claim C8, counterexample: for the terminal input "ab" the body sent is the
discriminator followed by the raw string — the payload is "ab" itself, not the
byte-safe transform used for Output payloads (base64 "YWI="; [97, 98] are the
scalar values of 'a' and 'b'). -/
theorem input_payload_raw_cx :
    (inputFrameData ['a', 'b']).drop 1 = ['a', 'b'] ∧
      (inputFrameData ['a', 'b']).drop 1 ≠ specInputPayload [97, 98] := by decide

/-- Claim C8, amended: the Input frame is the '1' discriminator followed by
the raw, untransformed input string; the payload placed after the
discriminator is exactly the input. -/
theorem input_payload_is_raw (input : List Char) :
    inputFrameData input = webtty.Input :: input ∧
      (inputFrameData input).drop 1 = input :=
  ⟨rfl, by simp [inputFrameData]⟩

/-- Claim C9: the websocket origin check accepts every request — CheckOrigin
is constantly true, so no connection attempt is ever refused because of its
Origin header, whatever the requesting page's origin. -/
theorem checkOrigin_always_true : ∀ r : Request, checkOrigin r = true :=
  fun _ => rfl

/-- Claim C10: the browser client's websocket URL uses the page hostname with
the hard-coded port 8080 — unchanged under any page port — and starts with
"wss:" exactly when the page protocol is https (otherwise "ws:/"). -/
theorem client_url_port8080_scheme (loc : Location) (p : String) :
    connectionUrl { loc with port := p } = connectionUrl loc ∧
    (connectionUrl loc).data.take 4 =
      (if loc.protocol = "https:" then ['w', 's', 's', ':'] else ['w', 's', ':', '/']) ∧
    connectionUrl loc =
      (if loc.protocol = "https:" then "wss://" else "ws://") ++
        (loc.hostname ++ (":8080" ++ (loc.pathname ++ "ws"))) := by
  refine ⟨rfl, ?_, ?_⟩
  · unfold connectionUrl
    split
    · simp [String.data_append]
    · simp [String.data_append]
  · unfold connectionUrl
    rw [String.append_assoc, String.append_assoc, String.append_assoc]

end Gotty
